import Mathlib

/-!
Formal model of the `mynews` feed-dashboard pipeline (`mynews/build.py`).

Text is modelled as `List Char` (Python strings are sequences of characters and
`len` counts characters).  Pure string functions of the source are translated
directly; the stdlib helpers the source calls (`html.unescape`, `html.escape`,
`datetime.timestamp`, `list.sort`) are modelled where noted, and all IO
(network, stdout/stderr, the output file) is made explicit as data.
-/

/-- Characters matched by the Python regex class `\s` in the ASCII range
(`re.sub(r"\s+", " ", text)`, `build.py` line 60).  Python's `\s` additionally
matches some non-ASCII Unicode whitespace, which none of the inputs considered
here contain. -/
def isPyWs (c : Char) : Bool :=
  c == ' ' || c == '\t' || c == '\n' || c == '\r' || c == '\x0b' || c == '\x0c'

/-- State machine implementing `re.sub(r"<[^>]+>", "", text)` (`build.py`
line 58).  State `none`: scanning ordinary text.  State `some buf`: a `<` has
been read, followed by the characters of `buf` (stored reversed), none of which
is `>`.  The regex removes, for each `<`, everything up to and including the
first `>` after it provided at least one character stands between them; a `<>`
pair, and a `<` never followed by `>`, are left in place — exactly what the
branches below do. -/
def stripTagsAux : Option (List Char) → List Char → List Char
  | none, [] => []
  | some buf, [] => '<' :: buf.reverse
  | none, c :: cs =>
    if c = '<' then stripTagsAux (some []) cs else c :: stripTagsAux none cs
  | some buf, c :: cs =>
    if c = '>' then
      if buf = [] then '<' :: '>' :: stripTagsAux none cs else stripTagsAux none cs
    else stripTagsAux (some (c :: buf)) cs

/-- `re.sub(r"<[^>]+>", "", text)` — the tag-removal step of `strip_html`. -/
def stripTags (text : List Char) : List Char :=
  stripTagsAux none text

/-- Modelled from the spec: "decode HTML entities" (`html.unescape`, `build.py`
line 59).  The stdlib replaces HTML character references by their characters
using a large table; this model implements the five core references
(`&amp;` `&lt;` `&gt;` `&quot;` `&#39;`) and, exactly like the stdlib, leaves
any other text unchanged.  Decoding is a single left-to-right pass: the text a
replacement produces is not rescanned (so `&amp;lt;` yields `&lt;`, not `<`).
The recursion is driven by a fuel counter so that the definition stays
structural. -/
def unescapeF : Nat → List Char → List Char
  | 0, l => l
  | _ + 1, [] => []
  | n + 1, c :: cs =>
    if c = '&' then
      if cs.take 4 = "amp;".data then '&' :: unescapeF n (cs.drop 4)
      else if cs.take 3 = "lt;".data then '<' :: unescapeF n (cs.drop 3)
      else if cs.take 3 = "gt;".data then '>' :: unescapeF n (cs.drop 3)
      else if cs.take 5 = "quot;".data then Char.ofNat 34 :: unescapeF n (cs.drop 5)
      else if cs.take 4 = "#39;".data then Char.ofNat 39 :: unescapeF n (cs.drop 4)
      else c :: unescapeF n cs
    else c :: unescapeF n cs

/-- Entity decoding over the whole text; each step consumes at least one
character, so `l.length` steps of fuel always suffice. -/
def unescape (l : List Char) : List Char := unescapeF l.length l

/-- One pass of `re.sub(r"\s+", " ", text)` (`build.py` line 60): every maximal
run of whitespace becomes one space.  The flag records whether the scanner is
inside a whitespace run whose single space has already been emitted. -/
def squeezeWsAux : Bool → List Char → List Char
  | _, [] => []
  | inRun, c :: cs =>
    if isPyWs c then
      if inRun then squeezeWsAux true cs else ' ' :: squeezeWsAux true cs
    else c :: squeezeWsAux false cs

/-- `.strip()` on the squeezed text: after squeezing, the only whitespace left
is the space character, so stripping whitespace from both ends is dropping
spaces from both ends. -/
def trimSpaces (l : List Char) : List Char :=
  ((l.dropWhile (· == ' ')).reverse.dropWhile (· == ' ')).reverse

/-- `re.sub(r"\s+", " ", text).strip()` (`build.py` line 60). -/
def collapseWs (l : List Char) : List Char :=
  trimSpaces (squeezeWsAux false l)

/-- `strip_html` (`build.py` lines 56-61): remove HTML tags, decode entities,
collapse runs of whitespace and strip the ends. -/
def strip_html (text : List Char) : List Char :=
  collapseWs (unescape (stripTags text))

/-- `text.rsplit(" ", 1)[0]`: everything before the last space, or the whole
text when it contains no space. -/
def beforeLastSpace (l : List Char) : List Char :=
  match l.reverse.dropWhile (fun c => !(c == ' ')) with
  | [] => l
  | _ :: rest => rest.reverse

/-- `truncate` (`build.py` lines 64-68): texts of at most `max_len` characters
are returned unchanged; longer texts are cut to `max_len` characters, backed
off to before the last space of that cut (if any), with `"..."` appended. -/
def truncate (text : List Char) (max_len : Nat := 200) : List Char :=
  if text.length ≤ max_len then text
  else beforeLastSpace (text.take max_len) ++ "...".data

def pageA : List Char :=
  ("<!DOCTYPE html>\n<html lang=\"en\">\n<head>\n  <meta charset=\"UTF-8\">\n  <meta name=\"viewport\" content=\"width=device-width, initial-scale=1.0\">\n  <title>MyNews</title>\n  <style>\n    *, *::before, *::after \x7b box-sizing: border-box; \x7d\n\n    body \x7b\n      margin: 0;\n      padding: 0;\n      font-family: -apple-system, BlinkMacSystemFont, \"Segoe UI\", Roboto, \"Helvetica Neue\", Arial, sans-serif;\n      line-height: 1.6;\n      color: #1a1a2e;\n      background: #f8f9fa;\n    \x7d\n\n    header \x7b\n      background: #fff;\n      border-bottom: 1px solid #e2e8f0;\n      padding: 24px 32px 16px;\n    \x7d\n\n    header h1 \x7b\n      margin: 0 0 4px;\n      font-size: 28px;\n      font-weight: 700;\n      letter-spacing: -0.5px;\n    \x7d\n\n    .updated \x7b\n      margin: 0;\n      font-size: 13px;\n      color: #64748b;\n    \x7d\n\n    .filters \x7b\n      display: flex;\n      flex-wrap: wrap;\n      gap: 8px;\n      padding: 16px 32px;\n      background: #fff;\n      border-bottom: 1px solid #e2e8f0;\n    \x7d\n\n    .filter-btn \x7b\n      padding: 6px 14px;\n      border: 1px solid #e2e8f0;\n      border-radius: 20px;\n      background: #fff;\n      cursor: pointer;\n      font-size: 13px;\n      color: #475569;\n      transition: all 0.15s ease;\n    \x7d\n\n    .filter-btn:hover \x7b\n      background: #f1f5f9;\n    \x7d\n\n    .filter-btn.active \x7b\n      background: #1a1a2e;\n      color: #fff;\n      border-color: #1a1a2e;\n    \x7d\n\n    main \x7b\n      max-width: 960px;\n      margin: 24px auto;\n      padding: 0 24px;\n      display: grid;\n      grid-template-columns: repeat(auto-fill, minmax(320px, 1fr));\n      gap: 16px;\n    \x7d\n\n    .card \x7b\n      background: #fff;\n      border-radius: 8px;\n      padding: 20px;\n      border-left: 4px solid #e2e8f0;\n      box-shadow: 0 1px 3px rgba(0,0,0,0.04);\n      transition: box-shadow 0.15s ease;\n    \x7d\n\n    .card:hover \x7b\n      box-shadow: 0 4px 12px rgba(0,0,0,0.08);\n    \x7d\n\n    .card-meta \x7b\n      display: flex;\n      justify-content: space-between;\n      align-items: center;\n      margin-bottom: 8px;\n      font-size: 13px;\n    \x7d\n\n    .source-badge \x7b\n      font-weight: 600;\n    \x7d\n\n    time \x7b\n      color: #94a3b8;\n    \x7d\n\n    .card h2 \x7b\n      margin: 0 0 8px;\n      font-size: 17px;\n      font-weight: 600;\n      line-height: 1.4;\n    \x7d\n\n    .card h2 a \x7b\n      color: #1a1a2e;\n      text-decoration: none;\n    \x7d\n\n    .card h2 a:hover \x7b\n      color: #4f46e5;\n      text-decoration: underline;\n    \x7d\n\n    .summary \x7b\n      margin: 0;\n      font-size: 14px;\n      color: #64748b;\n      line-height: 1.5;\n    \x7d\n\n    .empty \x7b\n      grid-column: 1 / -1;\n      text-align: center;\n      color: #94a3b8;\n      font-size: 16px;\n      padding: 48px 0;\n    \x7d\n\n    @media (prefers-color-scheme: dark) \x7b\n      body \x7b\n        background: #0f172a;\n        color: #e2e8f0;\n      \x7d\n\n      header \x7b\n        background: #1e293b;\n        border-bottom-color: #334155;\n      \x7d\n\n      .updated \x7b\n        color: #94a3b8;\n      \x7d\n\n      .filters \x7b\n        background: #1e293b;\n        border-bottom-color: #334155;\n      \x7d\n\n      .filter-btn \x7b\n        background: #1e293b;\n        border-color: #334155;\n        color: #cbd5e1;\n      \x7d\n\n      .filter-btn:hover \x7b\n        background: #334155;\n      \x7d\n\n      .filter-btn.active \x7b\n        background: #e2e8f0;\n        color: #0f172a;\n        border-color: #e2e8f0;\n      \x7d\n\n      .card \x7b\n        background: #1e293b;\n        box-shadow: 0 1px 3px rgba(0,0,0,0.2);\n      \x7d\n\n      .card:hover \x7b\n        box-shadow: 0 4px 12px rgba(0,0,0,0.3);\n      \x7d\n\n      .card h2 a \x7b\n        color: #e2e8f0;\n      \x7d\n\n      .card h2 a:hover \x7b\n        color: #818cf8;\n      \x7d\n\n      .summary \x7b\n        color: #94a3b8;\n      \x7d\n\n      time \x7b\n        color: #64748b;\n      \x7d\n    \x7d\n\n    @media (max-width: 480px) \x7b\n      header \x7b\n        padding: 16px;\n      \x7d\n\n      .filters \x7b\n        padding: 12px 16px;\n      \x7d\n\n      main \x7b\n        padding: 0 12px;\n        margin: 16px auto;\n        grid-template-columns: 1fr;\n      \x7d\n    \x7d\n  </style>\n</head>\n<body>\n  <header>\n    <h1>MyNews</h1>\n    <p class=\"updated\">Last updated: " : String).data

def pageB : List Char :=
  ("</p>\n  </header>\n  <nav class=\"filters\">\n    " : String).data

def pageC : List Char :=
  ("\n  </nav>\n  <main>\n" : String).data

def pageD : List Char :=
  ("\n  </main>\n  <script>\n    document.querySelectorAll(\x27.filter-btn\x27).forEach(function(btn) \x7b\n      btn.addEventListener(\x27click\x27, function() \x7b\n        var source = this.dataset.source;\n        document.querySelectorAll(\x27.card\x27).forEach(function(card) \x7b\n          card.style.display = (source === \x27all\x27 || card.dataset.source === source) ? \x27\x27 : \x27none\x27;\n        \x7d);\n        document.querySelectorAll(\x27.filter-btn\x27).forEach(function(b) \x7b\n          b.classList.toggle(\x27active\x27, b === btn);\n        \x7d);\n      \x7d);\n    \x7d);\n  </script>\n</body>\n</html>\n" : String).data

/-- `html.escape` with the default `quote=True` (`build.py` lines 129-131, 134):
one `str.replace` pass for one character. -/
def replaceChar (t : Char) (r : List Char) : List Char → List Char
  | [] => []
  | c :: cs => (if c = t then r else [c]) ++ replaceChar t r cs

/-- Modelled from the stdlib source of `html.escape(s, quote=True)`: replace
`&` by `&amp;`, then `<` by `&lt;`, `>` by `&gt;`, `"` by `&quot;` and `'` by
`&#x27;`, in that order (the order makes the later passes leave the earlier
replacements untouched). -/
def escape (s : List Char) : List Char :=
  replaceChar (Char.ofNat 39) "&#x27;".data
    (replaceChar (Char.ofNat 34) "&quot;".data
      (replaceChar '>' "&gt;".data
        (replaceChar '<' "&lt;".data
          (replaceChar '&' "&amp;".data s))))

/-- The six components of a `time.struct_time` that `fetch_feed` passes to
`datetime` (`build.py` line 90): `datetime(*date_parsed[:6])`. -/
structure DateTime6 where
  year : Nat
  month : Nat
  day : Nat
  hour : Nat
  minute : Nat
  second : Nat
deriving DecidableEq

/-- Days between a civil date and 1970-01-01 (proleptic Gregorian calendar),
the standard days-from-civil computation. -/
def civilYAdj (y m : Int) : Int :=
  if m ≤ 2 then y - 1 else y

def civilEra (y m : Int) : Int :=
  (if 0 ≤ civilYAdj y m then civilYAdj y m else civilYAdj y m - 399) / 400

def civilYoe (y m : Int) : Int :=
  civilYAdj y m - civilEra y m * 400

def civilDoy (m d : Int) : Int :=
  (153 * ((m + 9) % 12) + 2) / 5 + d - 1

def civilDoe (y m d : Int) : Int :=
  civilYoe y m * 365 + civilYoe y m / 4 - civilYoe y m / 100 + civilDoy m d

def daysFromCivil (y m d : Int) : Int :=
  civilEra y m * 146097 + civilDoe y m d - 719468

/-- Modelled from the spec ("a numeric recency key", "a sortable timestamp"):
`dt.timestamp()` (`build.py` line 92), seconds between `dt` and the epoch.
The stdlib interprets the naive `dt` in the local timezone; that shifts every
key by a bounded zone offset and is immaterial to the ordering facts proved
here, so the model uses the UTC interpretation. -/
def pyTimestamp (t : DateTime6) : Int :=
  daysFromCivil t.year t.month t.day * 86400 + t.hour * 3600 + t.minute * 60 + t.second

/-- Zero-pad a digit string on the left to `k` characters. -/
def padZeros (k : Nat) (l : List Char) : List Char :=
  List.replicate (k - l.length) '0' ++ l

/-- `dt.strftime("%Y-%m-%d")` (`build.py` line 91): zero-padded
year-month-day. -/
def dateStr (t : DateTime6) : List Char :=
  padZeros 4 (Nat.toDigits 10 t.year) ++ ('-' :: padZeros 2 (Nat.toDigits 10 t.month)) ++
    ('-' :: padZeros 2 (Nat.toDigits 10 t.day))

/-- One entry of the `FEEDS` registry (`build.py` lines 12-53). -/
structure FeedConfig where
  name : List Char
  slug : List Char
  url : List Char
  icon : List Char
  color : List Char
  max_items : Nat
deriving DecidableEq

/-- The feed registry `FEEDS` (`build.py` lines 12-53). -/
def FEEDS : List FeedConfig :=
  [{ name := "Import AI".data, slug := "import-ai".data,
     url := "https://importai.substack.com/feed".data,
     icon := [Char.ofNat 0x1F916], color := "#6366f1".data, max_items := 5 },
   { name := "Simon Willison".data, slug := "simon-willison".data,
     url := "https://simonwillison.net/atom/everything/".data,
     icon := [Char.ofNat 0x1F4BB], color := "#059669".data, max_items := 10 },
   { name := "Lenny\x27s Newsletter".data, slug := "lennys-newsletter".data,
     url := "https://www.lennysnewsletter.com/feed".data,
     icon := [Char.ofNat 0x1F4CA], color := "#d97706".data, max_items := 5 },
   { name := "NN/g".data, slug := "nng".data,
     url := "https://www.nngroup.com/feed/rss/".data,
     icon := [Char.ofNat 0x1F52C], color := "#dc2626".data, max_items := 5 },
   { name := "Maggie Appleton".data, slug := "maggie-appleton".data,
     url := "https://maggieappleton.com/rss.xml".data,
     icon := [Char.ofNat 0x1F33F], color := "#16a34a".data, max_items := 5 }]

/-- One parsed feed entry as `fetch_feed` reads it (`build.py` lines 87-98):
`entry.get("published_parsed")`, `entry.get("updated_parsed")`,
`entry.get("title")`, `entry.get("link")`, `entry.get("summary")`; `none`
models an absent (or `None`) field. -/
structure Entry where
  published : Option DateTime6
  updated : Option DateTime6
  title : Option (List Char)
  link : Option (List Char)
  summary : Option (List Char)
deriving DecidableEq

/-- The article record built from one entry (`build.py` lines 100-112). -/
structure Article where
  title : List Char
  link : List Char
  date : List Char
  sort_key : Int
  summary : List Char
  source_name : List Char
  source_slug : List Char
  source_icon : List Char
  source_color : List Char
deriving DecidableEq

/-- `entry.get("published_parsed") or entry.get("updated_parsed")`
(`build.py` line 88; a present `struct_time` is always truthy). -/
def resolvedDate (e : Entry) : Option DateTime6 :=
  match e.published with
  | some d => some d
  | none => e.updated

/-- The body of the per-entry loop of `fetch_feed` (`build.py` lines 88-112). -/
def makeArticle (cfg : FeedConfig) (e : Entry) : Article :=
  { title := e.title.getD "Untitled".data
    link := e.link.getD "#".data
    date := match resolvedDate e with
            | some d => dateStr d
            | none => []
    sort_key := match resolvedDate e with
                | some d => pyTimestamp d
                | none => 0
    summary := truncate (strip_html (e.summary.getD [])) 200
    source_name := cfg.name
    source_slug := cfg.slug
    source_icon := cfg.icon
    source_color := cfg.color }

/-- What one fetch+parse attempt produced: `Except.error msg` models any
exception raised during the request or parse (network error, timeout,
non-parseable response), `Except.ok entries` the parsed entry list. -/
abbrev FetchResult : Type := Except (List Char) (List Entry)

/-- The warning `fetch_feed` prints to `sys.stderr` on failure
(`build.py` line 83). -/
def warnMsg (cfg : FeedConfig) (e : List Char) : List Char :=
  "Warning: Failed to fetch ".data ++ cfg.name ++ (": ".data ++ e)

/-- `fetch_feed` (`build.py` lines 71-113) over an explicit fetch outcome:
on failure, emit the warning (second component models the stderr lines, the
primary output being the returned article list) and return no articles; on
success, normalize the first `max_items` entries in feed order. -/
def fetch_feed (cfg : FeedConfig) (result : FetchResult) :
    List Article × List (List Char) :=
  match result with
  | Except.error e => ([], [warnMsg cfg e])
  | Except.ok entries => ((entries.take cfg.max_items).map (makeArticle cfg), [])

/-- The fetch loop of `main` (`build.py` lines 393-397) over explicit
(feed, outcome) pairs. -/
def processFeeds (pairs : List (FeedConfig × FetchResult)) :
    List (List Article × List (List Char)) :=
  pairs.map (fun p => fetch_feed p.1 p.2)

/-- The comparison under `all_articles.sort(key=lambda a: a["sort_key"],
reverse=True)` (`build.py` line 403): `a` may stay before `b` iff `a`'s key is
at least `b`'s. -/
def keyGE (a b : Article) : Prop :=
  b.sort_key ≤ a.sort_key

instance : DecidableRel keyGE := fun a b => Int.decLe b.sort_key a.sort_key

instance : IsTotal Article keyGE :=
  ⟨fun a b => (le_total b.sort_key a.sort_key).imp id id⟩

instance : IsTrans Article keyGE :=
  ⟨fun _ _ _ h1 h2 => le_trans h2 h1⟩

/-- Modelled from the spec: `list.sort` with `reverse=True` (`build.py`
line 403) is a stable sort, here rendered as insertion sort with the
descending-key comparison (Timsort and insertion sort compute the same list:
the unique stable, sorted permutation). -/
def sortDesc (l : List Article) : List Article :=
  List.insertionSort keyGE l

/-- Aggregation (`build.py` lines 392-403): concatenate the per-feed article
lists in registry order, then stable-sort by recency key descending. -/
def aggregate (perFeed : List (List Article)) : List Article :=
  sortDesc perFeed.flatten

/-- The first filter button plus one per feed (`build.py` lines 119-124). -/
def filterButtons : List Char :=
  "<button class=\"filter-btn active\" data-source=\"all\">All</button>\n".data ++
    (FEEDS.map (fun feed =>
      "        <button class=\"filter-btn\" data-source=\"".data ++ feed.slug ++
        ("\">".data ++ feed.icon ++ (' ' :: feed.name) ++ "</button>\n".data))).flatten

/-- The fixed text segments of the card template (`build.py` lines 132-140),
in order, around the ten interpolation points. -/
def cardL1 : List Char := "      <article class=\"card\" data-source=\"".data

def cardL2 : List Char := "\" style=\"border-left-color: ".data

def cardL3 : List Char :=
  "\">\n        <div class=\"card-meta\">\n          <span class=\"source-badge\" style=\"color: ".data

def cardL4 : List Char := "\">".data

def cardL5 : List Char := "</span>\n          <time datetime=\"".data

def cardL6 : List Char := "\">".data

def cardL7 : List Char := "</time>\n        </div>\n        <h2><a href=\"".data

def cardL8 : List Char := "\" target=\"_blank\" rel=\"noopener noreferrer\">".data

def cardL9 : List Char := "</a></h2>\n        <p class=\"summary\">".data

def cardL10 : List Char := "</p>\n      </article>\n".data

/-- One article card (`build.py` lines 128-140): title, summary, link and
source name are passed through `html.escape`; slug, color, icon and date are
inserted as-is. -/
def cardOf (a : Article) : List Char :=
  cardL1 ++ a.source_slug ++ cardL2 ++ a.source_color ++ cardL3 ++ a.source_color ++
    cardL4 ++ a.source_icon ++ (' ' :: escape a.source_name) ++ cardL5 ++ a.date ++
    cardL6 ++ a.date ++ cardL7 ++ escape a.link ++ cardL8 ++ escape a.title ++
    cardL9 ++ escape a.summary ++ cardL10

/-- The concatenated cards (`build.py` lines 127-140). -/
def cardsJoined (articles : List Article) : List Char :=
  (articles.map cardOf).flatten

/-- The empty-state message (`build.py` lines 142-143). -/
def emptyCards : List Char :=
  "      <p class=\"empty\">No articles available. Try running the build again later.</p>\n".data

/-- `if not cards:` fallback (`build.py` lines 142-143). -/
def cardsSection (articles : List Article) : List Char :=
  if cardsJoined articles = [] then emptyCards else cardsJoined articles

/-- `generate_html` (`build.py` lines 116-387): the full page, with
`updated_at`, the filter buttons and the cards interpolated into the fixed
template (`pageA`-`pageD` above). -/
def generate_html (articles : List Article) (updated_at : List Char) : List Char :=
  pageA ++ updated_at ++ (pageB ++ (filterButtons ++ (pageC ++ (cardsSection articles ++ pageD))))

/-- The message `main` prints to `sys.stderr` before `sys.exit(1)`
(`build.py` line 400). -/
def errNoArticles : List Char :=
  "Error: No articles fetched from any source.".data

/-- The observable outcome of one run of `main`: the process exit code, the
lines written to `sys.stderr`, and the content written to `index.html`
(`none` when the run exited before writing). -/
structure RunOutcome where
  exitCode : Nat
  errStream : List (List Char)
  written : Option (List Char)
deriving DecidableEq

/-- All articles `main` aggregates (`build.py` lines 392-397): the per-feed
lists of `fetch_feed`, in registry order, concatenated.  `responses` are the
per-feed fetch outcomes, paired positionally with `FEEDS`. -/
def allArticles (responses : List FetchResult) : List Article :=
  ((processFeeds (FEEDS.zip responses)).map Prod.fst).flatten

/-- All warnings the fetch loop writes to stderr. -/
def allWarns (responses : List FetchResult) : List (List Char) :=
  ((processFeeds (FEEDS.zip responses)).map Prod.snd).flatten

/-- `main` (`build.py` lines 390-412) with its IO made explicit: stdout
progress lines are omitted, stderr and the written file are returned in the
outcome.  With no articles, `main` prints to stderr and calls `sys.exit(1)`
before any write; otherwise it sorts, renders and writes `index.html`, and the
process ends with exit code 0. -/
def mainRun (responses : List FetchResult) (updated_at : List Char) : RunOutcome :=
  if allArticles responses = [] then
    { exitCode := 1, errStream := allWarns responses ++ [errNoArticles], written := none }
  else
    { exitCode := 0, errStream := allWarns responses,
      written := some (generate_html (sortDesc (allArticles responses)) updated_at) }

/-- `l` contains an HTML tag as a substring: a `<`, at least one character
none of which is `>`, then `>` (the shape `re.sub(r"<[^>]+>", ...)` deletes,
and the shape a browser reads as markup). -/
def containsTag (l : List Char) : Prop :=
  ∃ pre mid post, l = pre ++ '<' :: (mid ++ '>' :: post) ∧ mid ≠ [] ∧ '>' ∉ mid

/-- Tag-freedom invariant: after every `<`, either the very next character is
`>` or no `>` occurs at all.  Such a list contains no HTML tag. -/
def tameLt (l : List Char) : Prop :=
  ∀ pre suf, l = pre ++ '<' :: suf → (∃ s, suf = '>' :: s) ∨ '>' ∉ suf

/-- Text that cannot open or close markup nor end a double-quoted attribute:
no `<`, no `>`, no `"`. -/
def inertText (l : List Char) : Prop :=
  '<' ∉ l ∧ '>' ∉ l ∧ Char.ofNat 34 ∉ l

/-- `sub` occurs as a contiguous substring of `x`. -/
def appears (x sub : List Char) : Prop :=
  ∃ p q, x = p ++ (sub ++ q)

/-- A sample rendered article whose text fields carry HTML-special
characters, used to instantiate the rendering theorems. -/
def demoArticle : Article :=
  { title := "<script>alert(1)</script>".data
    link := "https://example.org/a?x=1&y=2".data
    date := "2024-01-01".data
    sort_key := 1704067200
    summary := "a \"quoted\" <b>summary</b>".data
    source_name := "Import AI".data
    source_slug := "import-ai".data
    source_icon := [Char.ofNat 0x1F916]
    source_color := "#6366f1".data }

/-- A minimal feed descriptor for instantiating per-feed theorems. -/
def demoFeed : FeedConfig :=
  { name := "Import AI".data, slug := "import-ai".data,
    url := "https://importai.substack.com/feed".data,
    icon := [Char.ofNat 0x1F916], color := "#6366f1".data, max_items := 5 }

/-- An entry whose raw summary carries entity-encoded markup. -/
def entryEncodedMarkup : Entry :=
  { published := none, updated := none, title := some "t".data,
    link := some "https://example.org".data,
    summary := some "&lt;b&gt;x&lt;/b&gt;".data }

/-- An entry whose raw summary carries literal markup and no entities. -/
def entryPlainMarkup : Entry :=
  { published := none, updated := none, title := none, link := none,
    summary := some "<b>hi</b>".data }

/-- An entry dated before the epoch (1900-01-01): its recency key is
negative. -/
def entryOld : Entry :=
  { published := some ⟨1900, 1, 1, 0, 0, 0⟩, updated := none, title := none,
    link := none, summary := none }

/-- An entry dated after the epoch (2024-01-01): its recency key is
positive. -/
def entryNew : Entry :=
  { published := some ⟨2024, 1, 1, 0, 0, 0⟩, updated := none, title := none,
    link := none, summary := none }

set_option maxRecDepth 8192

/-- If `dropWhile p` returns a cons, the predicate fails on its head. -/
theorem dropWhile_eq_cons_pred_false {p : Char → Bool} {l : List Char} {a : Char}
    {t : List Char} (h : l.dropWhile p = a :: t) : p a = false := by
  have w : l.dropWhile p ≠ [] := by simp [h]
  have := List.head_dropWhile_not p l w
  rwa [show (l.dropWhile p).head w = a by simp [h]] at this

/-- C5: texts of at most 200 characters pass through `truncate` unchanged. -/
theorem truncate_short_identity (text : List Char) (h : text.length ≤ 200) :
    truncate text 200 = text := by
  simp [truncate, h]

theorem truncate_short_identity_witness :
    "hi".data.length ≤ 200 ∧ truncate "hi".data 200 = "hi".data :=
  ⟨by decide, truncate_short_identity "hi".data (by decide)⟩

/-- C10: when the first 200 characters of a longer text contain no space,
`truncate` is the hard cut after 200 characters plus `"..."`, 203 characters
in all (`text[:200].rsplit(" ", 1)` returns the whole slice). -/
theorem truncate_long_no_space_hard_cut (text : List Char) (h1 : 200 < text.length)
    (h2 : ' ' ∉ text.take 200) :
    truncate text 200 = text.take 200 ++ "...".data ∧ (truncate text 200).length = 203 := by
  have hdrop : (text.take 200).reverse.dropWhile (fun c => !(c == ' ')) = [] := by
    rw [List.dropWhile_eq_nil_iff]
    intro x hx
    rw [List.mem_reverse] at hx
    have hxs : x ≠ ' ' := fun e => h2 (e ▸ hx)
    simp [hxs]
  have hb : beforeLastSpace (text.take 200) = text.take 200 := by
    unfold beforeLastSpace
    rw [hdrop]
  have hne : ¬ text.length ≤ 200 := by omega
  have htr : truncate text 200 = text.take 200 ++ "...".data := by
    rw [truncate, if_neg hne, hb]
  refine ⟨htr, ?_⟩
  rw [htr, List.length_append, List.length_take]
  have hm : min 200 text.length = 200 := by omega
  rw [hm]
  decide

theorem truncate_long_no_space_hard_cut_witness :
    truncate (List.replicate 201 'a') 200 =
        (List.replicate 201 'a').take 200 ++ "...".data ∧
      (truncate (List.replicate 201 'a') 200).length = 203 :=
  truncate_long_no_space_hard_cut (List.replicate 201 'a') (by decide) (by decide)

/-- C4: when the first 200 characters of a longer text contain a space,
`truncate` returns a prefix of the text that stops exactly at a space of the
text (a word boundary) followed by `"..."`, and the result has at most 203
characters. -/
theorem truncate_long_space_word_boundary (text : List Char) (h1 : 200 < text.length)
    (h2 : ' ' ∈ text.take 200) :
    ∃ p tail, text = p ++ ' ' :: tail ∧ truncate text 200 = p ++ "...".data ∧
      (truncate text 200).length ≤ 203 := by
  have hne : (text.take 200).reverse.dropWhile (fun c => !(c == ' ')) ≠ [] := by
    intro h
    have := List.dropWhile_eq_nil_iff.mp h ' ' (by rwa [List.mem_reverse])
    simp at this
  obtain ⟨d, rest, hdr⟩ : ∃ d rest,
      (text.take 200).reverse.dropWhile (fun c => !(c == ' ')) = d :: rest := by
    cases hc : (text.take 200).reverse.dropWhile (fun c => !(c == ' ')) with
    | nil => exact absurd hc hne
    | cons d rest => exact ⟨d, rest, rfl⟩
  have hd : d = ' ' := by
    have := dropWhile_eq_cons_pred_false hdr
    simpa using this
  subst hd
  set tw := (text.take 200).reverse.takeWhile (fun c => !(c == ' ')) with htw
  have hsplit : (text.take 200).reverse = tw ++ ' ' :: rest := by
    conv_lhs => rw [← List.takeWhile_append_dropWhile
      (p := fun c => !(c == ' ')) (l := (text.take 200).reverse)]
    rw [hdr]
  have ht2 : text.take 200 = rest.reverse ++ ' ' :: tw.reverse := by
    have h := congrArg List.reverse hsplit
    rw [List.reverse_reverse, List.reverse_append, List.reverse_cons,
      List.append_assoc] at h
    simpa using h
  have hbls : beforeLastSpace (text.take 200) = rest.reverse := by
    unfold beforeLastSpace
    rw [hdr]
  have hlen2 : (text.take 200).length = 200 := by
    rw [List.length_take]; omega
  have hnle : ¬ text.length ≤ 200 := by omega
  have htr : truncate text 200 = rest.reverse ++ "...".data := by
    rw [truncate, if_neg hnle, hbls]
  refine ⟨rest.reverse, tw.reverse ++ text.drop 200, ?_, ?_, ?_⟩
  · conv_lhs => rw [← List.take_append_drop 200 text]
    rw [ht2, List.append_assoc, List.cons_append]
  · exact htr
  · rw [htr, List.length_append]
    have hr1 : rest.reverse.length + 1 ≤ 200 := by
      have hc := congrArg List.length ht2
      rw [hlen2, List.length_append, List.length_cons] at hc
      omega
    have h3 : ("...".data).length = 3 := by decide
    omega

theorem truncate_long_space_word_boundary_witness :
    ∃ p tail, ('a' :: ' ' :: List.replicate 199 'b') = p ++ ' ' :: tail ∧
      truncate ('a' :: ' ' :: List.replicate 199 'b') 200 = p ++ "...".data ∧
      (truncate ('a' :: ' ' :: List.replicate 199 'b') 200).length ≤ 203 :=
  truncate_long_space_word_boundary ('a' :: ' ' :: List.replicate 199 'b')
    (by decide) (by decide)

theorem mem_replaceChar {t : Char} {r l : List Char} {x : Char}
    (hx : x ∈ replaceChar t r l) : x ∈ r ∨ (x ∈ l ∧ x ≠ t) := by
  induction l with
  | nil => simp [replaceChar] at hx
  | cons c cs ih =>
    rw [replaceChar] at hx
    rcases List.mem_append.mp hx with h | h
    · by_cases hc : c = t
      · rw [if_pos hc] at h
        exact Or.inl h
      · rw [if_neg hc] at h
        rcases List.mem_singleton.mp h with rfl
        exact Or.inr ⟨List.mem_cons_self _ _, hc⟩
    · rcases ih h with h' | ⟨h1, h2⟩
      · exact Or.inl h'
      · exact Or.inr ⟨List.mem_cons_of_mem _ h1, h2⟩

theorem not_mem_replaceChar_self {t : Char} {r : List Char} (l : List Char)
    (hr : t ∉ r) : t ∉ replaceChar t r l := by
  intro hx
  rcases mem_replaceChar hx with h | ⟨_, h⟩
  · exact hr h
  · exact h rfl

theorem not_mem_replaceChar_of {x t : Char} {r l : List Char}
    (hl : x ∉ l) (hr : x ∉ r) : x ∉ replaceChar t r l := by
  intro hx
  rcases mem_replaceChar hx with h | ⟨h, _⟩
  · exact hr h
  · exact hl h

/-- `html.escape` output is inert: it contains no raw `<`, `>` or `"`. -/
theorem escape_inert (s : List Char) : inertText (escape s) := by
  unfold inertText escape
  refine ⟨?_, ?_, ?_⟩
  · exact not_mem_replaceChar_of (not_mem_replaceChar_of
      (not_mem_replaceChar_of (not_mem_replaceChar_self _ (by decide)) (by decide))
      (by decide)) (by decide)
  · exact not_mem_replaceChar_of (not_mem_replaceChar_of
      (not_mem_replaceChar_self _ (by decide)) (by decide)) (by decide)
  · exact not_mem_replaceChar_of (not_mem_replaceChar_self _ (by decide)) (by decide)

theorem appears_within {x s : List Char} (h : appears x s) (y z : List Char) :
    appears (y ++ x ++ z) s := by
  obtain ⟨p, q, rfl⟩ := h
  exact ⟨y ++ p, q ++ z, by simp [List.append_assoc]⟩

theorem appears_card_title (a : Article) : appears (cardOf a) (escape a.title) :=
  ⟨cardL1 ++ a.source_slug ++ cardL2 ++ a.source_color ++ cardL3 ++ a.source_color ++
      cardL4 ++ a.source_icon ++ (' ' :: escape a.source_name) ++ cardL5 ++ a.date ++
      cardL6 ++ a.date ++ cardL7 ++ escape a.link ++ cardL8,
    cardL9 ++ (escape a.summary ++ cardL10),
    by unfold cardOf; simp [List.append_assoc]⟩

theorem appears_card_summary (a : Article) : appears (cardOf a) (escape a.summary) :=
  ⟨cardL1 ++ a.source_slug ++ cardL2 ++ a.source_color ++ cardL3 ++ a.source_color ++
      cardL4 ++ a.source_icon ++ (' ' :: escape a.source_name) ++ cardL5 ++ a.date ++
      cardL6 ++ a.date ++ cardL7 ++ escape a.link ++ cardL8 ++ escape a.title ++ cardL9,
    cardL10,
    by unfold cardOf; simp [List.append_assoc]⟩

theorem appears_card_link (a : Article) : appears (cardOf a) (escape a.link) :=
  ⟨cardL1 ++ a.source_slug ++ cardL2 ++ a.source_color ++ cardL3 ++ a.source_color ++
      cardL4 ++ a.source_icon ++ (' ' :: escape a.source_name) ++ cardL5 ++ a.date ++
      cardL6 ++ a.date ++ cardL7,
    cardL8 ++ (escape a.title ++ (cardL9 ++ (escape a.summary ++ cardL10))),
    by unfold cardOf; simp [List.append_assoc]⟩

theorem appears_card_source_name (a : Article) :
    appears (cardOf a) (escape a.source_name) :=
  ⟨cardL1 ++ a.source_slug ++ cardL2 ++ a.source_color ++ cardL3 ++ a.source_color ++
      cardL4 ++ a.source_icon ++ [' '],
    cardL5 ++ (a.date ++ (cardL6 ++ (a.date ++ (cardL7 ++ (escape a.link ++
      (cardL8 ++ (escape a.title ++ (cardL9 ++ (escape a.summary ++ cardL10))))))))),
    by unfold cardOf; simp [List.append_assoc]⟩

theorem cardOf_ne_nil (a : Article) : cardOf a ≠ [] := by
  unfold cardOf
  intro h
  have h1 := (List.append_eq_nil.mp h).1
  have h2 := (List.append_eq_nil.mp h1).1
  have h3 := (List.append_eq_nil.mp h2).1
  have h4 := (List.append_eq_nil.mp h3).1
  have h5 := (List.append_eq_nil.mp h4).1
  have h6 := (List.append_eq_nil.mp h5).1
  have h7 := (List.append_eq_nil.mp h6).1
  have h8 := (List.append_eq_nil.mp h7).1
  have h9 := (List.append_eq_nil.mp h8).1
  have h10 := (List.append_eq_nil.mp h9).1
  have h11 := (List.append_eq_nil.mp h10).1
  have h12 := (List.append_eq_nil.mp h11).1
  have h13 := (List.append_eq_nil.mp h12).1
  have h14 := (List.append_eq_nil.mp h13).1
  have h15 := (List.append_eq_nil.mp h14).1
  have h16 := (List.append_eq_nil.mp h15).1
  have h17 := (List.append_eq_nil.mp h16).1
  have h18 := (List.append_eq_nil.mp h17).1
  have h19 := (List.append_eq_nil.mp h18).1
  exact absurd h19 (by decide)

theorem cardsJoined_ne_nil (a : Article) (l1 l2 : List Article) :
    cardsJoined (l1 ++ a :: l2) ≠ [] := by
  unfold cardsJoined
  rw [List.map_append, List.map_cons, List.flatten_append, List.flatten_cons]
  intro hnil
  have h1 := (List.append_eq_nil.mp hnil).2
  have h2 := (List.append_eq_nil.mp h1).1
  exact cardOf_ne_nil a h2

theorem generate_html_decomp (u : List Char) (a : Article) (l1 l2 : List Article) :
    generate_html (l1 ++ a :: l2) u =
      (pageA ++ u ++ pageB ++ filterButtons ++ pageC ++ cardsJoined l1) ++ cardOf a ++
        (cardsJoined l2 ++ pageD) := by
  unfold generate_html cardsSection
  rw [if_neg (cardsJoined_ne_nil a l1 l2)]
  unfold cardsJoined
  rw [List.map_append, List.map_cons, List.flatten_append, List.flatten_cons]
  simp [List.append_assoc]

/-- C1: for every article in the list, the document `generate_html` produces
contains the `html.escape` image of the article's title, summary, link and
source name (those four fields are inserted only through `html.escape`,
`build.py` lines 129-134), and each of those escaped texts is inert: it
contains no raw `<`, `>` or `"`, so it can neither open or close a tag nor
break out of a double-quoted attribute — a title such as
`<script>alert(1)</script>` lands in the page as `&lt;script&gt;...` only. -/
theorem generate_html_escapes_fields (articles : List Article) (u : List Char)
    (a : Article) (ha : a ∈ articles) :
    (appears (generate_html articles u) (escape a.title) ∧
      appears (generate_html articles u) (escape a.summary) ∧
      appears (generate_html articles u) (escape a.link) ∧
      appears (generate_html articles u) (escape a.source_name)) ∧
    (inertText (escape a.title) ∧ inertText (escape a.summary) ∧
      inertText (escape a.link) ∧ inertText (escape a.source_name)) := by
  obtain ⟨l1, l2, rfl⟩ := List.append_of_mem ha
  rw [generate_html_decomp u a l1 l2]
  exact ⟨⟨appears_within (appears_card_title a) _ _,
      appears_within (appears_card_summary a) _ _,
      appears_within (appears_card_link a) _ _,
      appears_within (appears_card_source_name a) _ _⟩,
    escape_inert _, escape_inert _, escape_inert _, escape_inert _⟩

theorem generate_html_escapes_fields_witness :
    (appears (generate_html [demoArticle] "2024-01-01 00:00".data)
        (escape demoArticle.title) ∧
      appears (generate_html [demoArticle] "2024-01-01 00:00".data)
        (escape demoArticle.summary) ∧
      appears (generate_html [demoArticle] "2024-01-01 00:00".data)
        (escape demoArticle.link) ∧
      appears (generate_html [demoArticle] "2024-01-01 00:00".data)
        (escape demoArticle.source_name)) ∧
    (inertText (escape demoArticle.title) ∧ inertText (escape demoArticle.summary) ∧
      inertText (escape demoArticle.link) ∧ inertText (escape demoArticle.source_name)) :=
  generate_html_escapes_fields [demoArticle] "2024-01-01 00:00".data demoArticle
    (List.mem_singleton.mpr rfl)

theorem tameLt_nil : tameLt [] := by
  intro pre suf h
  exact absurd h (by simp)

theorem cons_eq_append_cons {c x : Char} {t pre suf : List Char}
    (h : c :: t = pre ++ x :: suf) :
    (pre = [] ∧ c = x ∧ t = suf) ∨ ∃ pre2, pre = c :: pre2 ∧ t = pre2 ++ x :: suf := by
  cases pre with
  | nil =>
    simp only [List.nil_append, List.cons.injEq] at h
    exact Or.inl ⟨rfl, h.1, h.2⟩
  | cons p ps =>
    simp only [List.cons_append, List.cons.injEq] at h
    exact Or.inr ⟨ps, by rw [h.1], h.2⟩

theorem tameLt_cons {c : Char} {t : List Char} (hc : c ≠ '<') (h : tameLt t) :
    tameLt (c :: t) := by
  intro pre suf he
  rcases cons_eq_append_cons he with ⟨_, hcx, _⟩ | ⟨pre2, _, ht⟩
  · exact absurd hcx hc
  · exact h pre2 suf ht

theorem tameLt_cons_lt {t : List Char} (h : tameLt t)
    (hh : (∃ s, t = '>' :: s) ∨ '>' ∉ t) : tameLt ('<' :: t) := by
  intro pre suf he
  rcases cons_eq_append_cons he with ⟨_, _, ht⟩ | ⟨pre2, _, ht⟩
  · rw [← ht]
    exact hh
  · exact h pre2 suf ht

theorem tameLt_of_not_mem_gt {l : List Char} (h : '>' ∉ l) : tameLt l := by
  intro pre suf he
  refine Or.inr fun hm => h ?_
  rw [he]
  simp [hm]

theorem tameLt_suffix {x y : List Char} (h : tameLt (x ++ y)) : tameLt y := by
  intro pre suf he
  exact h (x ++ pre) suf (by rw [he, List.append_assoc])

theorem split_append_at_char {p q pre suf : List Char} {x : Char}
    (h : p ++ q = pre ++ x :: suf) (hq : x ∉ q) :
    ∃ s1, p = pre ++ x :: s1 ∧ suf = s1 ++ q := by
  rcases List.append_eq_append_iff.mp h with ⟨a, _, ha2⟩ | ⟨c, hc1, hc2⟩
  · exact absurd (by rw [ha2]; simp : x ∈ q) hq
  · cases c with
    | nil =>
      rw [List.nil_append] at hc2
      exact absurd (by rw [← hc2]; simp : x ∈ q) hq
    | cons y c2 =>
      rw [List.cons_append] at hc2
      injection hc2 with hy hsuf
      exact ⟨c2, by rw [hc1, hy], hsuf⟩

theorem tameLt_prefix {x y : List Char} (h : tameLt (x ++ y)) : tameLt x := by
  intro pre suf he
  have hx : x ++ y = pre ++ '<' :: (suf ++ y) := by
    rw [he]
    simp [List.append_assoc]
  rcases h pre (suf ++ y) hx with ⟨s, hs⟩ | hnot
  · cases suf with
    | nil => exact Or.inr (by simp)
    | cons d suf2 =>
      rw [List.cons_append] at hs
      injection hs with hd _
      exact Or.inl ⟨suf2, by rw [hd]⟩
  · exact Or.inr fun hm => hnot (by simp [hm])

theorem tameLt_append_inert {p q : List Char} (h : tameLt p) (hlt : '<' ∉ q)
    (hgt : '>' ∉ q) : tameLt (p ++ q) := by
  intro pre suf he
  obtain ⟨s1, hp, hs⟩ := split_append_at_char he hlt
  rcases h pre s1 hp with ⟨s2, h2⟩ | h2
  · rw [hs, h2]
    exact Or.inl ⟨s2 ++ q, by rw [List.cons_append]⟩
  · refine Or.inr fun hm => ?_
    rw [hs] at hm
    rcases List.mem_append.mp hm with hm | hm
    · exact h2 hm
    · exact hgt hm

/-- The tag stripper's output is tag-free: every `<` it leaves is immediately
closed (`<>`) or never followed by `>`. -/
theorem tameLt_stripTagsAux : ∀ (l : List Char) (st : Option (List Char)),
    (∀ buf, st = some buf → '>' ∉ buf) → tameLt (stripTagsAux st l) := by
  intro l
  induction l with
  | nil =>
    intro st hst
    cases st with
    | none => exact tameLt_nil
    | some buf =>
      have hb : '>' ∉ buf.reverse := by simpa using hst buf rfl
      exact tameLt_cons_lt (tameLt_of_not_mem_gt hb) (Or.inr hb)
  | cons c cs ih =>
    intro st hst
    cases st with
    | none =>
      by_cases hc : c = '<'
      · rw [stripTagsAux, if_pos hc]
        exact ih (some []) (by simp)
      · rw [stripTagsAux, if_neg hc]
        exact tameLt_cons hc (ih none (by simp))
    | some buf =>
      by_cases hc : c = '>'
      · by_cases hb : buf = []
        · rw [stripTagsAux, if_pos hc, if_pos hb]
          refine tameLt_cons_lt (tameLt_cons (by decide) (ih none (by simp))) ?_
          exact Or.inl ⟨stripTagsAux none cs, rfl⟩
        · rw [stripTagsAux, if_pos hc, if_neg hb]
          exact ih none (by simp)
      · rw [stripTagsAux, if_neg hc]
        refine ih (some (c :: buf)) ?_
        intro b hb
        injection hb with hb
        rw [← hb]
        intro hm
        rcases List.mem_cons.mp hm with h1 | h1
        · exact hc h1.symm
        · exact hst buf rfl h1

theorem tameLt_stripTags (l : List Char) : tameLt (stripTags l) :=
  tameLt_stripTagsAux l none (by simp)

theorem mem_stripTagsAux {x : Char} : ∀ (l : List Char) (st : Option (List Char)),
    x ∈ stripTagsAux st l →
      x = '<' ∨ x = '>' ∨ x ∈ l ∨ ∃ buf, st = some buf ∧ x ∈ buf := by
  intro l
  induction l with
  | nil =>
    intro st hx
    cases st with
    | none => simp [stripTagsAux] at hx
    | some buf =>
      rcases List.mem_cons.mp hx with h1 | h1
      · exact Or.inl h1
      · exact Or.inr (Or.inr (Or.inr ⟨buf, rfl, by simpa using h1⟩))
  | cons c cs ih =>
    intro st hx
    cases st with
    | none =>
      by_cases hc : c = '<'
      · rw [stripTagsAux, if_pos hc] at hx
        rcases ih (some []) hx with h1 | h1 | h1 | ⟨buf, hb, hm⟩
        · exact Or.inl h1
        · exact Or.inr (Or.inl h1)
        · exact Or.inr (Or.inr (Or.inl (List.mem_cons_of_mem _ h1)))
        · injection hb with hb
          rw [← hb] at hm
          simp at hm
      · rw [stripTagsAux, if_neg hc] at hx
        rcases List.mem_cons.mp hx with h1 | h1
        · exact Or.inr (Or.inr (Or.inl (h1 ▸ List.mem_cons_self _ _)))
        · rcases ih none h1 with h2 | h2 | h2 | ⟨buf, hb, _⟩
          · exact Or.inl h2
          · exact Or.inr (Or.inl h2)
          · exact Or.inr (Or.inr (Or.inl (List.mem_cons_of_mem _ h2)))
          · exact absurd hb (by simp)
    | some buf =>
      by_cases hc : c = '>'
      · by_cases hb : buf = []
        · rw [stripTagsAux, if_pos hc, if_pos hb] at hx
          rcases List.mem_cons.mp hx with h1 | h1
          · exact Or.inl h1
          · rcases List.mem_cons.mp h1 with h2 | h2
            · exact Or.inr (Or.inl h2)
            · rcases ih none h2 with h3 | h3 | h3 | ⟨b2, hb2, _⟩
              · exact Or.inl h3
              · exact Or.inr (Or.inl h3)
              · exact Or.inr (Or.inr (Or.inl (List.mem_cons_of_mem _ h3)))
              · exact absurd hb2 (by simp)
        · rw [stripTagsAux, if_pos hc, if_neg hb] at hx
          rcases ih none hx with h3 | h3 | h3 | ⟨b2, hb2, _⟩
          · exact Or.inl h3
          · exact Or.inr (Or.inl h3)
          · exact Or.inr (Or.inr (Or.inl (List.mem_cons_of_mem _ h3)))
          · exact absurd hb2 (by simp)
      · rw [stripTagsAux, if_neg hc] at hx
        rcases ih (some (c :: buf)) hx with h3 | h3 | h3 | ⟨b2, hb2, hm⟩
        · exact Or.inl h3
        · exact Or.inr (Or.inl h3)
        · exact Or.inr (Or.inr (Or.inl (List.mem_cons_of_mem _ h3)))
        · injection hb2 with hb2
          rw [← hb2] at hm
          rcases List.mem_cons.mp hm with h4 | h4
          · exact Or.inr (Or.inr (Or.inl (h4 ▸ List.mem_cons_self _ _)))
          · exact Or.inr (Or.inr (Or.inr ⟨buf, rfl, h4⟩))

theorem mem_stripTags {x : Char} {l : List Char} (h : x ∈ stripTags l) :
    x = '<' ∨ x = '>' ∨ x ∈ l := by
  rcases mem_stripTagsAux l none h with h1 | h1 | h1 | ⟨buf, hb, _⟩
  · exact Or.inl h1
  · exact Or.inr (Or.inl h1)
  · exact Or.inr (Or.inr h1)
  · exact absurd hb (by simp)

theorem stripTags_eq_of_no_lt {l : List Char} (h : '<' ∉ l) : stripTags l = l := by
  unfold stripTags
  induction l with
  | nil => rfl
  | cons c cs ih =>
    have hc : c ≠ '<' := fun e => h (e ▸ List.mem_cons_self c cs)
    rw [stripTagsAux, if_neg hc, ih fun m => h (List.mem_cons_of_mem _ m)]

theorem unescapeF_eq_of_not_amp : ∀ (n : Nat) (l : List Char), '&' ∉ l → unescapeF n l = l := by
  intro n
  induction n with
  | zero => intro l _; rfl
  | succ n ih =>
    intro l h
    cases l with
    | nil => rfl
    | cons c cs =>
      have hc : c ≠ '&' := fun e => h (e ▸ List.mem_cons_self c cs)
      rw [unescapeF, if_neg hc, ih cs fun m => h (List.mem_cons_of_mem _ m)]

theorem unescape_eq_of_not_amp {l : List Char} (h : '&' ∉ l) : unescape l = l :=
  unescapeF_eq_of_not_amp l.length l h

theorem mem_squeezeWsAux {x : Char} : ∀ (l : List Char) (b : Bool),
    x ∈ squeezeWsAux b l → x = ' ' ∨ x ∈ l := by
  intro l
  induction l with
  | nil => intro b hx; simp [squeezeWsAux] at hx
  | cons c cs ih =>
    intro b hx
    by_cases hw : isPyWs c
    · rw [squeezeWsAux, if_pos hw] at hx
      cases b with
      | true =>
        rcases ih true hx with h1 | h1
        · exact Or.inl h1
        · exact Or.inr (List.mem_cons_of_mem _ h1)
      | false =>
        rcases List.mem_cons.mp hx with h1 | h1
        · exact Or.inl h1
        · rcases ih true h1 with h2 | h2
          · exact Or.inl h2
          · exact Or.inr (List.mem_cons_of_mem _ h2)
    · rw [squeezeWsAux, if_neg hw] at hx
      rcases List.mem_cons.mp hx with h1 | h1
      · exact Or.inr (h1 ▸ List.mem_cons_self _ _)
      · rcases ih false h1 with h2 | h2
        · exact Or.inl h2
        · exact Or.inr (List.mem_cons_of_mem _ h2)

theorem tameLt_squeezeWsAux : ∀ (l : List Char) (b : Bool),
    tameLt l → tameLt (squeezeWsAux b l) := by
  intro l
  induction l with
  | nil => intro b _; exact tameLt_nil
  | cons c cs ih =>
    intro b h
    have hcs : tameLt cs := tameLt_suffix (x := [c]) h
    by_cases hw : isPyWs c
    · rw [squeezeWsAux, if_pos hw]
      cases b with
      | true => exact ih true hcs
      | false => exact tameLt_cons (by decide) (ih true hcs)
    · rw [squeezeWsAux, if_neg hw]
      by_cases hc : c = '<'
      · subst hc
        refine tameLt_cons_lt (ih false hcs) ?_
        rcases h [] cs rfl with ⟨s, rfl⟩ | hnot
        · exact Or.inl ⟨squeezeWsAux false s, rfl⟩
        · refine Or.inr fun hm => ?_
          rcases mem_squeezeWsAux cs false hm with h1 | h1
          · exact absurd h1 (by decide)
          · exact hnot h1
      · exact tameLt_cons hc (ih false hcs)

theorem tameLt_trimSpaces {l : List Char} (h : tameLt l) : tameLt (trimSpaces l) := by
  unfold trimSpaces
  have hm : tameLt (l.dropWhile (· == ' ')) := by
    refine tameLt_suffix (x := l.takeWhile (· == ' ')) ?_
    rw [List.takeWhile_append_dropWhile]
    exact h
  set m := l.dropWhile (· == ' ') with hmdef
  have hdecomp : m = (m.reverse.dropWhile (· == ' ')).reverse ++
      (m.reverse.takeWhile (· == ' ')).reverse := by
    conv_lhs => rw [← List.reverse_reverse m,
      ← List.takeWhile_append_dropWhile (p := (· == ' ')) (l := m.reverse)]
    rw [List.reverse_append]
  exact tameLt_prefix (hdecomp ▸ hm)

/-- `strip_html` of an ampersand-free text never contains an HTML tag shape:
the tag stripper leaves only harmless `<`, and with no `&` the entity decoding
is the identity, so no new markup can appear. -/
theorem tameLt_strip_html {raw : List Char} (h : '&' ∉ raw) : tameLt (strip_html raw) := by
  unfold strip_html collapseWs
  have hst : '&' ∉ stripTags raw := by
    intro hx
    rcases mem_stripTags hx with h1 | h1 | h1
    · exact absurd h1 (by decide)
    · exact absurd h1 (by decide)
    · exact h h1
  rw [unescape_eq_of_not_amp hst]
  exact tameLt_trimSpaces (tameLt_squeezeWsAux _ _ (tameLt_stripTags raw))

theorem beforeLastSpace_is_prefix_part (l : List Char) : ∃ q, l = beforeLastSpace l ++ q := by
  unfold beforeLastSpace
  cases hc : l.reverse.dropWhile (fun c => !(c == ' ')) with
  | nil => exact ⟨[], by simp⟩
  | cons d rest =>
    refine ⟨d :: (l.reverse.takeWhile (fun c => !(c == ' '))).reverse, ?_⟩
    have hsplit := List.takeWhile_append_dropWhile (p := fun c => !(c == ' ')) (l := l.reverse)
    rw [hc] at hsplit
    have h2 := congrArg List.reverse hsplit
    rw [List.reverse_append, List.reverse_cons, List.reverse_reverse] at h2
    conv_lhs => rw [← h2]
    simp [List.append_assoc]

theorem tameLt_truncate {l : List Char} (n : Nat) (h : tameLt l) : tameLt (truncate l n) := by
  unfold truncate
  split
  · exact h
  · refine tameLt_append_inert ?_ (by decide) (by decide)
    have htake : tameLt (l.take n) := by
      refine tameLt_prefix (y := l.drop n) ?_
      rw [List.take_append_drop]
      exact h
    obtain ⟨q, hq⟩ := beforeLastSpace_is_prefix_part (l.take n)
    exact tameLt_prefix (hq ▸ htake)

theorem not_containsTag_of_tameLt {l : List Char} (h : tameLt l) : ¬ containsTag l := by
  rintro ⟨pre, mid, post, he, hmid, hgt⟩
  rcases h pre (mid ++ '>' :: post) he with ⟨s, hs⟩ | hnot
  · cases mid with
    | nil => exact hmid rfl
    | cons m ms =>
      rw [List.cons_append] at hs
      injection hs with h1 _
      exact hgt (h1 ▸ List.mem_cons_self _ _)
  · exact hnot (by simp)

/-- C2 counterexample: `strip_html` removes tags before decoding entities, so
an entity-encoded summary decodes into literal markup, and the summary field
of the resulting article record contains an HTML tag. -/
theorem summary_contains_markup_cex :
    containsTag (makeArticle demoFeed entryEncodedMarkup).summary := by
  refine ⟨[], ['b'], "x</b>".data, ?_, by decide, by decide⟩
  decide

/-- C2 amended: for every raw summary containing no ampersand (so entity
decoding cannot reintroduce markup), the summary field of the article record
built from it contains no HTML tag. -/
theorem article_summary_no_markup_of_no_amp (cfg : FeedConfig) (e : Entry)
    (h : '&' ∉ e.summary.getD []) : ¬ containsTag (makeArticle cfg e).summary := by
  have hs : (makeArticle cfg e).summary = truncate (strip_html (e.summary.getD [])) 200 := rfl
  rw [hs]
  exact not_containsTag_of_tameLt (tameLt_truncate 200 (tameLt_strip_html h))

theorem article_summary_no_markup_of_no_amp_witness :
    '&' ∉ (entryPlainMarkup.summary.getD []) ∧
      ¬ containsTag (makeArticle demoFeed entryPlainMarkup).summary :=
  ⟨by decide, article_summary_no_markup_of_no_amp demoFeed entryPlainMarkup (by decide)⟩

/-- C3 counterexample: `strip_html` is not idempotent, and the image of
`strip_html` is not fixed by it: `strip_html "&amp;lt;" = "&lt;"` but
`strip_html "&lt;" = "<"`. -/
theorem strip_html_not_idempotent_cex :
    strip_html (strip_html "&amp;lt;".data) ≠ strip_html "&amp;lt;".data := by
  decide

/-- C3 amended: `strip_html` fixes every string that is genuinely already
processed — no `<` (nothing for the tag stripper), no `&` (nothing for entity
decoding) and already whitespace-collapsed. -/
theorem strip_html_fixpoint_of_clean (s : List Char) (h1 : '<' ∉ s) (h2 : '&' ∉ s)
    (h3 : collapseWs s = s) : strip_html s = s := by
  unfold strip_html
  rw [stripTags_eq_of_no_lt h1, unescape_eq_of_not_amp h2, h3]

theorem strip_html_fixpoint_of_clean_witness :
    '<' ∉ "abc d".data ∧ '&' ∉ "abc d".data ∧ collapseWs "abc d".data = "abc d".data ∧
      strip_html "abc d".data = "abc d".data :=
  ⟨by decide, by decide, by decide,
    strip_html_fixpoint_of_clean "abc d".data (by decide) (by decide) (by decide)⟩

theorem filter_orderedInsert_eq_key {k : Int} (a : Article) (ha : a.sort_key = k)
    (l : List Article) :
    (List.orderedInsert keyGE a l).filter (fun x => x.sort_key == k) =
      a :: l.filter (fun x => x.sort_key == k) := by
  induction l with
  | nil => simp [List.orderedInsert, ha]
  | cons b t ih =>
    rw [List.orderedInsert]
    split
    · simp [List.filter_cons, ha]
    · rename_i hr
      have hblt : a.sort_key < b.sort_key := by
        unfold keyGE at hr
        omega
      have hb : (b.sort_key == k) = false := by
        have : b.sort_key ≠ k := by omega
        simpa using this
      simp [List.filter_cons, hb, ih]

theorem filter_orderedInsert_ne_key {k : Int} (a : Article) (ha : a.sort_key ≠ k)
    (l : List Article) :
    (List.orderedInsert keyGE a l).filter (fun x => x.sort_key == k) =
      l.filter (fun x => x.sort_key == k) := by
  have ha2 : (a.sort_key == k) = false := by simpa using ha
  induction l with
  | nil => simp [List.orderedInsert, ha2]
  | cons b t ih =>
    rw [List.orderedInsert]
    split
    · simp [List.filter_cons, ha2]
    · simp [List.filter_cons, ih]

/-- Stability of the aggregation sort: for any key value, the records holding
that key appear in the sorted output exactly as they appear in the input. -/
theorem filter_sortDesc_eq (l : List Article) (k : Int) :
    (sortDesc l).filter (fun x => x.sort_key == k) =
      l.filter (fun x => x.sort_key == k) := by
  unfold sortDesc
  induction l with
  | nil => rfl
  | cons a t ih =>
    rw [List.insertionSort]
    by_cases ha : a.sort_key = k
    · rw [filter_orderedInsert_eq_key a ha, ih]
      simp [List.filter_cons, ha]
    · rw [filter_orderedInsert_ne_key a ha, ih]
      have ha2 : (a.sort_key == k) = false := by simpa using ha
      simp [List.filter_cons, ha2]

/-- C6: aggregation concatenates the per-feed lists and sorts by recency key
descending (`keyGE`), the result is a permutation of the concatenation, and
the sort is stable: for each key value, records with that key keep their
concatenation order (stated as equality of the key-filtered sequences). -/
theorem aggregate_sorted_stable (perFeed : List (List Article)) (k : Int) :
    List.Sorted keyGE (aggregate perFeed) ∧
      (aggregate perFeed).filter (fun x => x.sort_key == k) =
        perFeed.flatten.filter (fun x => x.sort_key == k) ∧
      List.Perm (aggregate perFeed) perFeed.flatten :=
  ⟨List.sorted_insertionSort keyGE _, filter_sortDesc_eq _ k,
    List.perm_insertionSort keyGE _⟩

/-- C7 counterexample: a feed entry published before 1970 gets a negative
recency key, and after sorting the undated record (key 0) comes first, i.e.
it does NOT sort after this dated record with a non-zero key. -/
theorem undated_not_after_dated_cex :
    (makeArticle demoFeed entryOld).sort_key ≠ 0 ∧
      sortDesc [makeArticle demoFeed entryOld, makeArticle demoFeed entryPlainMarkup] =
        [makeArticle demoFeed entryPlainMarkup, makeArticle demoFeed entryOld] := by
  constructor
  · decide
  · decide

/-- C7 amended: an undated entry yields an empty display date and recency key
zero, and after sorting every record with a positive recency key precedes
every record with key zero (undated records sort after all dated records
whose key is positive; a pre-1970 date yields a negative key and sorts after
the undated ones). -/
theorem undated_zero_key_after_positive :
    (∀ (cfg : FeedConfig) (e : Entry), e.published = none → e.updated = none →
        (makeArticle cfg e).date = [] ∧ (makeArticle cfg e).sort_key = 0) ∧
    (∀ (l : List Article) (i j : Fin (sortDesc l).length),
        ((sortDesc l).get i).sort_key = 0 → 0 < ((sortDesc l).get j).sort_key →
          (j : Nat) < (i : Nat)) := by
  constructor
  · intro cfg e hp hu
    constructor
    · simp [makeArticle, resolvedDate, hp, hu]
    · simp [makeArticle, resolvedDate, hp, hu]
  · intro l i j hi hj
    by_contra hc
    push_neg at hc
    rcases Nat.eq_or_lt_of_le hc with heq | hlt
    · have hij : i = j := Fin.ext heq
      rw [hij] at hi
      omega
    · have hs : List.Sorted keyGE (sortDesc l) := List.sorted_insertionSort keyGE l
      have := hs.rel_get_of_lt (a := i) (b := j) hlt
      unfold keyGE at this
      omega

theorem undated_zero_key_after_positive_witness :
    ((makeArticle demoFeed entryPlainMarkup).date = [] ∧
      (makeArticle demoFeed entryPlainMarkup).sort_key = 0) ∧
      (0 : Nat) < 1 :=
  ⟨undated_zero_key_after_positive.1 demoFeed entryPlainMarkup rfl rfl,
    undated_zero_key_after_positive.2
      [makeArticle demoFeed entryPlainMarkup, makeArticle demoFeed entryNew]
      ⟨1, by decide⟩ ⟨0, by decide⟩ (by decide) (by decide)⟩

/-- C8: when zero articles are aggregated, the run reports the error message
on stderr, exits with code 1 and writes nothing (the prior `index.html` stays
untouched); when at least one article is aggregated, the run exits 0 and
writes the rendered document for the sorted aggregate. -/
theorem mainRun_empty_vs_nonempty (responses : List FetchResult) (u : List Char) :
    (allArticles responses = [] →
      (mainRun responses u).exitCode = 1 ∧ (mainRun responses u).written = none ∧
        errNoArticles ∈ (mainRun responses u).errStream) ∧
    (allArticles responses ≠ [] →
      (mainRun responses u).exitCode = 0 ∧
        (mainRun responses u).written =
          some (generate_html (sortDesc (allArticles responses)) u)) := by
  constructor
  · intro h
    unfold mainRun
    rw [if_pos h]
    exact ⟨rfl, rfl, by simp⟩
  · intro h
    unfold mainRun
    rw [if_neg h]
    exact ⟨rfl, rfl⟩

theorem mainRun_empty_vs_nonempty_witness :
    (mainRun [Except.error "boom".data] "t".data).exitCode = 1 ∧
      (mainRun [Except.error "boom".data] "t".data).written = none ∧
      (mainRun [Except.ok [entryPlainMarkup]] "t".data).exitCode = 0 ∧
      (mainRun [Except.ok [entryPlainMarkup]] "t".data).written =
        some (generate_html (sortDesc (allArticles [Except.ok [entryPlainMarkup]])) "t".data) := by
  have h1 := (mainRun_empty_vs_nonempty [Except.error "boom".data] "t".data).1 (by decide)
  have h2 := (mainRun_empty_vs_nonempty [Except.ok [entryPlainMarkup]] "t".data).2 (by decide)
  exact ⟨h1.1, h1.2.1, h2.1, h2.2⟩

/-- C9: a failed fetch yields no articles and exactly one warning on the
error channel; the warning names the feed; and the surrounding feed loop
processes every other feed exactly as it would have — a failure never aborts
the run. -/
theorem fetch_feed_failure_recovery (cfg : FeedConfig) (err : List Char)
    (pre post : List (FeedConfig × FetchResult)) :
    fetch_feed cfg (Except.error err) = ([], [warnMsg cfg err]) ∧
      (∃ p q, warnMsg cfg err = p ++ (cfg.name ++ q)) ∧
      processFeeds (pre ++ (cfg, Except.error err) :: post) =
        processFeeds pre ++ ([], [warnMsg cfg err]) :: processFeeds post := by
  refine ⟨rfl, ⟨"Warning: Failed to fetch ".data, ": ".data ++ err, ?_⟩, ?_⟩
  · simp [warnMsg, List.append_assoc]
  · unfold processFeeds
    rw [List.map_append, List.map_cons]
    rfl
